import Mathlib

/-!
Shallow embedding of the candle-nano-vllm state-tracking core: the
sequence ledger (crates/common/src/sequence.rs), the execution context
slot (crates/utils/src/context.rs) and the safetensors weight loader
(crates/utils/src/loader.rs), together with theorems checking the
specification's claims against the embedded code.

Conventions: `usize` and `u32` values are `Nat` (none of the verified
operations can overflow or depend on the machine width); Rust `f32`
fields are carried as their raw bit patterns, since no verified
operation computes with them; Rust panics and `Result` errors are
`Option`/`Except`; the global atomic id counter and the global mutex
slot are threaded as explicit state.
-/

namespace NanoVllm

/-- Model of `SequenceStatus` (sequence.rs): Waiting, Running or Finished. -/
inductive SequenceStatus where
  | Waiting
  | Running
  | Finished
deriving DecidableEq

/-- Model of `SamplingParams` (sampling.rs).  `temperature` is an `f32` in the
source, carried here as its raw 32-bit pattern. -/
structure SamplingParams where
  temperature : Nat
  max_tokens : Nat
  ignore_eos : Bool
deriving DecidableEq

/-- Model of `Sequence` (sequence.rs): per-request token and cache bookkeeping. -/
structure Sequence where
  seq_id : Nat
  status : SequenceStatus
  token_ids : List Nat
  last_token_id : Nat
  num_tokens : Nat
  num_prompt_tokens : Nat
  num_cached_tokens : Nat
  block_table : List Nat
  temperature : Nat
  max_tokens : Nat
  ignore_eos : Bool
deriving DecidableEq

/-- Model of `Sequence::BLOCK_SIZE`: tokens per KV-cache block. -/
def Sequence.BLOCK_SIZE : Nat := 256

/-- Rust slice indexing `&v[start..stop]`: `none` models the
bounds-violation panic when `start > stop` or `stop > v.len()`. -/
def listSlice (l : List Nat) (start stop : Nat) : Option (List Nat) :=
  if start ≤ stop ∧ stop ≤ l.length then some ((l.take stop).drop start) else none

/-- Model of `Sequence::new` together with `next_seq_id`: the global atomic
counter is threaded explicitly, so creation maps the current counter to
the created sequence and the incremented counter.  The source asserts
non-emptiness before the struct literal evaluates `next_seq_id()`
(`fetch_add`), so a rejected creation produces no sequence and no
successor counter state.  `token_ids.last().unwrap()` under that assert
is `getLast?` here. -/
def Sequence.new (counter : Nat) (token_ids : List Nat)
    (params : SamplingParams) : Option (Sequence × Nat) :=
  match token_ids.getLast? with
  | none => none
  | some last =>
      some ({ seq_id := counter
              status := SequenceStatus.Waiting
              last_token_id := last
              num_prompt_tokens := token_ids.length
              num_tokens := token_ids.length
              token_ids := token_ids
              num_cached_tokens := 0
              block_table := []
              temperature := params.temperature
              max_tokens := params.max_tokens
              ignore_eos := params.ignore_eos }, counter + 1)

/-- Model of `Sequence::len`. -/
def Sequence.len (s : Sequence) : Nat := s.num_tokens

/-- Model of `Sequence::num_completion_tokens`. -/
def Sequence.num_completion_tokens (s : Sequence) : Nat :=
  s.num_tokens - s.num_prompt_tokens

/-- Model of `Sequence::prompt_token_ids`: `&token_ids[..num_prompt_tokens]`. -/
def Sequence.prompt_token_ids (s : Sequence) : Option (List Nat) :=
  listSlice s.token_ids 0 s.num_prompt_tokens

/-- Model of `Sequence::completion_token_ids`: `&token_ids[num_prompt_tokens..]`. -/
def Sequence.completion_token_ids (s : Sequence) : Option (List Nat) :=
  listSlice s.token_ids s.num_prompt_tokens s.token_ids.length

/-- Model of `Sequence::num_cached_blocks`. -/
def Sequence.num_cached_blocks (s : Sequence) : Nat :=
  s.num_cached_tokens / Sequence.BLOCK_SIZE

/-- Model of `Sequence::num_blocks`: `(num_tokens + BLOCK_SIZE - 1) / BLOCK_SIZE`. -/
def Sequence.num_blocks (s : Sequence) : Nat :=
  (s.num_tokens + Sequence.BLOCK_SIZE - 1) / Sequence.BLOCK_SIZE

/-- Model of `Sequence::last_block_num_tokens`. -/
def Sequence.last_block_num_tokens (s : Sequence) : Nat :=
  let num_blocks := s.num_blocks
  if num_blocks = 0 then 0
  else s.num_tokens - (num_blocks - 1) * Sequence.BLOCK_SIZE

/-- Model of `Sequence::block`: asserts `i < num_blocks()` (the `none` branch),
then slices `token_ids[i*BLOCK_SIZE .. min((i+1)*BLOCK_SIZE, len)]`. -/
def Sequence.block (s : Sequence) (i : Nat) : Option (List Nat) :=
  if i < s.num_blocks then
    listSlice s.token_ids (i * Sequence.BLOCK_SIZE)
      (min ((i + 1) * Sequence.BLOCK_SIZE) s.token_ids.length)
  else none

/-- Model of `Sequence::append_token`: push the token, cache it as last token,
bump `num_tokens`; all other fields of `self` are untouched. -/
def Sequence.append_token (s : Sequence) (token_id : Nat) : Sequence :=
  { s with token_ids := s.token_ids ++ [token_id]
           last_token_id := token_id
           num_tokens := s.num_tokens + 1 }

/-- Model of `k` successive `append_token` calls, fed by a list of `k` tokens. -/
def Sequence.append_tokens (s : Sequence) (ts : List Nat) : Sequence :=
  ts.foldl Sequence.append_token s

/-- A concrete 257-token sequence (num_tokens = buffer length = 257). -/
def seq257 : Sequence :=
  { seq_id := 0
    status := SequenceStatus.Waiting
    token_ids := List.replicate 257 5
    last_token_id := 5
    num_tokens := 257
    num_prompt_tokens := 257
    num_cached_tokens := 0
    block_table := []
    temperature := 0
    max_tokens := 16
    ignore_eos := false }

/-- A concrete 256-token sequence (num_tokens = buffer length = 256). -/
def seq256 : Sequence :=
  { seq_id := 1
    status := SequenceStatus.Waiting
    token_ids := List.replicate 256 5
    last_token_id := 5
    num_tokens := 256
    num_prompt_tokens := 256
    num_cached_tokens := 0
    block_table := []
    temperature := 0
    max_tokens := 16
    ignore_eos := false }

/-- The sequence produced by `Sequence.new 0 [5] ⟨0, 16, false⟩`. -/
def seqSingle : Sequence :=
  { seq_id := 0
    status := SequenceStatus.Waiting
    token_ids := [5]
    last_token_id := 5
    num_tokens := 1
    num_prompt_tokens := 1
    num_cached_tokens := 0
    block_table := []
    temperature := 0
    max_tokens := 16
    ignore_eos := false }

/-- Division facts for `num_blocks`: it is at least `n / 256` rounded up. -/
theorem num_blocks_bounds (s : Sequence) :
    s.num_tokens ≤ s.num_blocks * Sequence.BLOCK_SIZE ∧
      s.num_blocks * Sequence.BLOCK_SIZE < s.num_tokens + Sequence.BLOCK_SIZE := by
  have h := Nat.div_add_mod (s.num_tokens + 255) 256
  have h2 := Nat.mod_lt (s.num_tokens + 255) (show 0 < 256 by omega)
  unfold Sequence.num_blocks Sequence.BLOCK_SIZE
  omega

/-- C1: with BLOCK_SIZE = 256, `num_blocks()` is the ceiling of
`num_tokens / 256` (characterized by its Galois property
`num_blocks ≤ m ↔ num_tokens ≤ m * 256`), and `last_block_num_tokens()`
is `num_tokens - (num_blocks - 1) * 256` when there is at least one
block and 0 otherwise; in particular 256 tokens give 1 block with 256
tokens in it, and 257 tokens give 2 blocks with 1 token in the last. -/
theorem num_blocks_ceil_last_block (s : Sequence) :
    (∀ m : Nat, s.num_blocks ≤ m ↔ s.num_tokens ≤ m * Sequence.BLOCK_SIZE) ∧
    (0 < s.num_blocks →
      s.last_block_num_tokens
        = s.num_tokens - (s.num_blocks - 1) * Sequence.BLOCK_SIZE) ∧
    (s.num_blocks = 0 → s.last_block_num_tokens = 0) ∧
    (s.num_tokens = 256 → s.num_blocks = 1 ∧ s.last_block_num_tokens = 256) ∧
    (s.num_tokens = 257 → s.num_blocks = 2 ∧ s.last_block_num_tokens = 1) := by
  have h := Nat.div_add_mod (s.num_tokens + 255) 256
  have h2 := Nat.mod_lt (s.num_tokens + 255) (show 0 < 256 by omega)
  have hnb : s.num_blocks = (s.num_tokens + 255) / 256 := rfl
  have hB : Sequence.BLOCK_SIZE = 256 := rfl
  have hlb : s.last_block_num_tokens
      = if s.num_blocks = 0 then 0
        else s.num_tokens - (s.num_blocks - 1) * 256 := rfl
  refine ⟨fun m => ?_, fun h0 => ?_, fun h0 => ?_, fun h0 => ?_, fun h0 => ?_⟩
  · rw [hnb, hB]; omega
  · rw [hnb] at h0
    rw [hlb, hnb, hB, if_neg (by omega)]
  · rw [hlb, if_pos h0]
  · rw [hlb]; rw [hnb, h0] at *; decide
  · rw [hlb]; rw [hnb, h0] at *; decide

/-- C1 witness: the theorem applied at the concrete 256- and 257-token
sequences, discharging the hypotheses there. -/
theorem num_blocks_ceil_last_block_witness :
    (seq256.num_blocks = 1 ∧ seq256.last_block_num_tokens = 256) ∧
    (seq257.num_blocks = 2 ∧ seq257.last_block_num_tokens = 1) :=
  ⟨(num_blocks_ceil_last_block seq256).2.2.2.1 (by decide),
   (num_blocks_ceil_last_block seq257).2.2.2.2 (by decide)⟩

/-- Successful creation determines every field of the new sequence. -/
theorem new_some_eq (counter : Nat) (prompt : List Nat)
    (params : SamplingParams) (s : Sequence) (counter' : Nat)
    (h : Sequence.new counter prompt params = some (s, counter')) :
    s.token_ids = prompt ∧ s.num_tokens = prompt.length ∧
      s.num_prompt_tokens = prompt.length ∧
      s.status = SequenceStatus.Waiting ∧ s.num_cached_tokens = 0 ∧
      s.block_table = [] ∧ counter' = counter + 1 := by
  unfold Sequence.new at h
  cases hl : prompt.getLast? with
  | none => rw [hl] at h; exact absurd h (by simp)
  | some last =>
      rw [hl] at h
      simp only [Option.some.injEq, Prod.mk.injEq] at h
      obtain ⟨hs, hc⟩ := h
      subst hs
      exact ⟨rfl, rfl, rfl, rfl, rfl, rfl, hc.symm⟩

/-- C2: under the buffer-length invariant, `block(i)` for `i <
num_blocks()` returns the token sub-range starting at `i * BLOCK_SIZE`
of length `BLOCK_SIZE` — except for the last block, whose length is
`last_block_num_tokens()` — and `block(i)` for `i ≥ num_blocks()` is a
bounds violation, not a truncated or empty slice. -/
theorem block_slice_spec (s : Sequence) (i : Nat)
    (hinv : s.num_tokens = s.token_ids.length) :
    (i < s.num_blocks →
      s.block i
        = some ((s.token_ids.drop (i * Sequence.BLOCK_SIZE)).take
            Sequence.BLOCK_SIZE) ∧
      (i + 1 < s.num_blocks →
        ((s.token_ids.drop (i * Sequence.BLOCK_SIZE)).take
            Sequence.BLOCK_SIZE).length = Sequence.BLOCK_SIZE) ∧
      (i + 1 = s.num_blocks →
        ((s.token_ids.drop (i * Sequence.BLOCK_SIZE)).take
            Sequence.BLOCK_SIZE).length = s.last_block_num_tokens)) ∧
    (s.num_blocks ≤ i → s.block i = none) := by
  have h := Nat.div_add_mod (s.num_tokens + 255) 256
  have h2 := Nat.mod_lt (s.num_tokens + 255) (show 0 < 256 by omega)
  have hnb : s.num_blocks = (s.num_tokens + 255) / 256 := rfl
  have hB : Sequence.BLOCK_SIZE = 256 := rfl
  have hlen : s.token_ids.length = s.num_tokens := hinv.symm
  constructor
  · intro hi
    have hq := hi
    rw [hnb] at hq
    have hi256 : i * 256 < s.num_tokens := by omega
    have hcond : i * 256 ≤ min ((i + 1) * 256) s.token_ids.length ∧
        min ((i + 1) * 256) s.token_ids.length ≤ s.token_ids.length :=
      ⟨Nat.le_min.mpr ⟨by omega, by omega⟩, Nat.min_le_right _ _⟩
    have hblock : s.block i
        = some ((s.token_ids.take
            (min ((i + 1) * 256) s.token_ids.length)).drop (i * 256)) := by
      unfold Sequence.block listSlice
      rw [hB, if_pos hi, if_pos hcond]
    have hdt : (s.token_ids.take
          (min ((i + 1) * 256) s.token_ids.length)).drop (i * 256)
        = (s.token_ids.drop (i * 256)).take 256 := by
      rw [List.drop_take]
      rcases Nat.le_total ((i + 1) * 256) s.token_ids.length with hle | hle
      · rw [Nat.min_eq_left hle]
        congr 1
        omega
      · rw [Nat.min_eq_right hle,
          List.take_of_length_le (by simp [List.length_drop]),
          List.take_of_length_le
            (by simp only [List.length_drop]; omega)]
    refine ⟨?_, ?_, ?_⟩
    · rw [hB, hblock, hdt]
    · intro h3
      rw [hnb] at h3
      rw [hB]
      simp only [List.length_take, List.length_drop, hlen]
      omega
    · intro h3
      have hlb : s.last_block_num_tokens
          = if s.num_blocks = 0 then 0
            else s.num_tokens - (s.num_blocks - 1) * 256 := rfl
      rw [hnb] at h3
      rw [hB, hlb, if_neg (by rw [hnb]; omega), hnb]
      simp only [List.length_take, List.length_drop, hlen]
      omega
  · intro hi
    unfold Sequence.block
    rw [if_neg (by omega)]

/-- The concrete 257-token sequence satisfies the buffer-length
invariant. -/
theorem seq257_inv : seq257.num_tokens = seq257.token_ids.length := by
  rw [show seq257.token_ids = List.replicate 257 5 from rfl,
    List.length_replicate]
  rfl

/-- C2 witness: the theorem applied to the concrete 257-token sequence,
at block index 0 (valid) and block index 2 (out of bounds). -/
theorem block_slice_spec_witness :
    seq257.block 0
      = some ((seq257.token_ids.drop (0 * Sequence.BLOCK_SIZE)).take
          Sequence.BLOCK_SIZE) ∧
    seq257.block 2 = none :=
  ⟨((block_slice_spec seq257 0 seq257_inv).1
      (by norm_num [seq257, Sequence.num_blocks, Sequence.BLOCK_SIZE])).1,
   (block_slice_spec seq257 2 seq257_inv).2
      (by norm_num [seq257, Sequence.num_blocks, Sequence.BLOCK_SIZE])⟩

/-- Iterated `append_token` concatenates the fed tokens and leaves the
prompt length unchanged. -/
theorem append_tokens_state (s : Sequence) (ts : List Nat) :
    (s.append_tokens ts).token_ids = s.token_ids ++ ts ∧
      (s.append_tokens ts).num_tokens = s.num_tokens + ts.length ∧
      (s.append_tokens ts).num_prompt_tokens = s.num_prompt_tokens := by
  induction ts generalizing s with
  | nil => simp [Sequence.append_tokens]
  | cons t ts ih =>
      have h1 : s.append_tokens (t :: ts)
          = (s.append_token t).append_tokens ts := rfl
      obtain ⟨a, b, c⟩ := ih (s.append_token t)
      rw [h1]
      refine ⟨?_, ?_, ?_⟩
      · rw [a]; simp [Sequence.append_token]
      · rw [b]; simp [Sequence.append_token]; omega
      · rw [c]; simp [Sequence.append_token]

/-- C4: `append_token` appends the token, caches it as last token and
bumps `num_tokens` by one, leaving every other field unchanged; after
feeding `k` tokens to a freshly created sequence, `num_tokens` has grown
by exactly `k` and the completion slice is exactly those `k` tokens. -/
theorem append_token_frame_and_count :
    (∀ (s : Sequence) (t : Nat),
      (s.append_token t).token_ids = s.token_ids ++ [t] ∧
      (s.append_token t).last_token_id = t ∧
      (s.append_token t).num_tokens = s.num_tokens + 1 ∧
      (s.append_token t).status = s.status ∧
      (s.append_token t).seq_id = s.seq_id ∧
      (s.append_token t).num_prompt_tokens = s.num_prompt_tokens ∧
      (s.append_token t).num_cached_tokens = s.num_cached_tokens ∧
      (s.append_token t).block_table = s.block_table ∧
      (s.append_token t).temperature = s.temperature ∧
      (s.append_token t).max_tokens = s.max_tokens ∧
      (s.append_token t).ignore_eos = s.ignore_eos) ∧
    (∀ (counter : Nat) (prompt : List Nat) (params : SamplingParams)
        (s : Sequence) (counter' : Nat) (ts : List Nat),
      Sequence.new counter prompt params = some (s, counter') →
      (s.append_tokens ts).num_tokens = s.num_tokens + ts.length ∧
      (s.append_tokens ts).completion_token_ids = some ts) := by
  constructor
  · intro s t
    exact ⟨rfl, rfl, rfl, rfl, rfl, rfl, rfl, rfl, rfl, rfl, rfl⟩
  · intro counter prompt params s counter' ts h
    obtain ⟨htok, hnum, hp, -, -, -, -⟩ := new_some_eq _ _ _ _ _ h
    obtain ⟨a, b, c⟩ := append_tokens_state s ts
    refine ⟨b, ?_⟩
    unfold Sequence.completion_token_ids listSlice
    rw [a, c, htok, hp]
    rw [if_pos ⟨by simp only [List.length_append]; omega, Nat.le_refl _⟩]
    rw [List.take_length, List.drop_left]

/-- C4 witness: the theorem applied to a concrete sequence and to the
fresh creation `Sequence.new 0 [5] ⟨0, 16, false⟩` fed two tokens. -/
theorem append_token_frame_and_count_witness :
    ((seqSingle.append_token 8).num_tokens = seqSingle.num_tokens + 1 ∧
      (seqSingle.append_token 8).status = seqSingle.status) ∧
    ((seqSingle.append_tokens [8, 9]).num_tokens
        = seqSingle.num_tokens + 2 ∧
      (seqSingle.append_tokens [8, 9]).completion_token_ids
        = some [8, 9]) :=
  ⟨⟨(append_token_frame_and_count.1 seqSingle 8).2.2.1,
    (append_token_frame_and_count.1 seqSingle 8).2.2.2.1⟩,
   append_token_frame_and_count.2 0 [5] ⟨0, 16, false⟩ seqSingle 1 [8, 9]
     (by decide)⟩

/-- C3: a sequence freshly created from a non-empty prompt is Waiting,
has no cached tokens, an empty block table, and both token counts equal
to the prompt length. -/
theorem new_initial_state (counter : Nat) (prompt : List Nat)
    (params : SamplingParams) (s : Sequence) (counter' : Nat)
    (h : Sequence.new counter prompt params = some (s, counter')) :
    s.status = SequenceStatus.Waiting ∧ s.num_cached_tokens = 0 ∧
      s.block_table = [] ∧ s.num_tokens = prompt.length ∧
      s.num_prompt_tokens = prompt.length := by
  unfold Sequence.new at h
  cases hl : prompt.getLast? with
  | none => rw [hl] at h; exact absurd h (by simp)
  | some last =>
      rw [hl] at h
      simp only [Option.some.injEq, Prod.mk.injEq] at h
      obtain ⟨hs, _⟩ := h
      subst hs
      exact ⟨rfl, rfl, rfl, rfl, rfl⟩

/-- C3 witness: the theorem applied to the concrete creation
`Sequence.new 0 [5] ⟨0, 16, false⟩`. -/
theorem new_initial_state_witness :
    seqSingle.status = SequenceStatus.Waiting ∧
      seqSingle.num_cached_tokens = 0 ∧ seqSingle.block_table = [] ∧
      seqSingle.num_tokens = ([5] : List Nat).length ∧
      seqSingle.num_prompt_tokens = ([5] : List Nat).length :=
  new_initial_state 0 [5] ⟨0, 16, false⟩ seqSingle 1 (by decide)

/-- C5: creation from an empty prompt is rejected before any state is
created — it returns no sequence and no advanced counter (the source
asserts non-emptiness before `next_seq_id()` runs). -/
theorem new_empty_prompt_rejected (counter : Nat) (params : SamplingParams) :
    Sequence.new counter [] params = none := rfl

/-- Model of `Context` (context.rs): the attention-kernel view of the current
batch.  Tensors are values of the external `candle_core` crate, so the
structure is parametric in the tensor type `T`. -/
structure Context (T : Type) where
  is_prefill : Bool
  cu_seqlens_q : Option T
  cu_seqlens_k : Option T
  max_seqlen_q : Nat
  max_seqlen_k : Nat
  slot_mapping : Option T
  context_lens : Option T
  block_tables : Option (List T)

/-- Model of `Context::default` / `Context::new`: decode mode, no tensors, zero
maximum lengths. -/
def Context.empty (T : Type) : Context T :=
  { is_prefill := false
    cu_seqlens_q := none
    cu_seqlens_k := none
    max_seqlen_q := 0
    max_seqlen_k := 0
    slot_mapping := none
    context_lens := none
    block_tables := none }

/-- Model of `get_context` (context.rs): the global `Mutex<Option<Context>>` slot
is passed explicitly; returns the stored snapshot, or the default when
nothing has been set. -/
def get_context {T : Type} (slot : Option (Context T)) : Context T :=
  match slot with
  | some ctx => ctx
  | none => Context.empty T

/-- Model of `set_context` (context.rs): overwrites the slot with a snapshot
built from the eight arguments; the previous slot contents are
discarded. -/
def set_context {T : Type} (_slot : Option (Context T)) (is_prefill : Bool)
    (cu_seqlens_q cu_seqlens_k : Option T) (max_seqlen_q max_seqlen_k : Nat)
    (slot_mapping context_lens : Option T)
    (block_tables : Option (List T)) : Option (Context T) :=
  some { is_prefill := is_prefill
         cu_seqlens_q := cu_seqlens_q
         cu_seqlens_k := cu_seqlens_k
         max_seqlen_q := max_seqlen_q
         max_seqlen_k := max_seqlen_k
         slot_mapping := slot_mapping
         context_lens := context_lens
         block_tables := block_tables }

/-- C6: `get_context` immediately after `set_context` returns exactly
the snapshot that was set, field for field, whatever the slot held
before — `set_context` replaces the slot wholesale and never merges
with the previous contents. -/
theorem set_get_roundtrip {T : Type} (prev : Option (Context T))
    (ip : Bool) (q k : Option T) (mq mk : Nat) (sm cl : Option T)
    (bt : Option (List T)) :
    get_context (set_context prev ip q k mq mk sm cl bt)
      = { is_prefill := ip
          cu_seqlens_q := q
          cu_seqlens_k := k
          max_seqlen_q := mq
          max_seqlen_k := mk
          slot_mapping := sm
          context_lens := cl
          block_tables := bt } := rfl

/-- Tensor and parameter names: Rust `&str` as a character list. -/
abbrev Name := List Char

/-- Rust `str::contains`: `pat` occurs as a contiguous substring of `l`
(an empty pattern always matches, as in Rust). -/
def containsSub (l pat : Name) : Bool :=
  match l with
  | [] => pat.isEmpty
  | _ :: rest => pat.isPrefixOf l || containsSub rest pat

/-- Worker for `str::replace`: structural recursion on a fuel bounded by
the list length.  When `pat` is non-empty every step consumes at least
one character, so `l.length` fuel always reaches the empty list before
the fuel runs out; the fuel-exhausted branch is unreachable then. -/
def replaceAllGo (pat rep : Name) : Nat → Name → Name
  | _, [] => []
  | 0, l => l
  | fuel + 1, c :: rest =>
    if pat.isPrefixOf (c :: rest) then
      rep ++ replaceAllGo pat rep fuel ((c :: rest).drop pat.length)
    else
      c :: replaceAllGo pat rep fuel rest

/-- Rust `str::replace`: replace every non-overlapping occurrence of
`pat` by `rep`, scanning left to right.  An empty pattern matches at
every character boundary, as in Rust. -/
def replaceAll (l pat rep : Name) : Name :=
  if pat.isEmpty then
    rep ++ l.foldr (fun c acc => c :: (rep ++ acc)) []
  else
    replaceAllGo pat rep l.length l

/-- Model of `PackedModulesMapping` (loader.rs): pattern ↦ (replacement, shard
id).  The source iterates a `HashMap` in unspecified order; the list
fixes one such order. -/
abbrev PackedModulesMapping := List (Name × (Name × Nat))

/-- Model of `find_packed_mapping` (loader.rs): first entry whose pattern is a
substring of the tensor name wins; the pattern is replaced to give the
parameter name, paired with the entry's shard id. -/
def find_packed_mapping (tensor_name : Name)
    (mapping : PackedModulesMapping) : Option (Name × Nat) :=
  match mapping with
  | [] => none
  | (pattern, (replacement, shard_id)) :: rest =>
    if containsSub tensor_name pattern then
      some (replaceAll tensor_name pattern replacement, shard_id)
    else
      find_packed_mapping tensor_name rest

/-- The name-resolution step of `process_tensor` (loader.rs, lines
181-189): consult the optional packed mapping, fall back to the
unmodified name with no shard id. -/
def resolve_target_name (tensor_name : Name)
    (mapping : Option PackedModulesMapping) : Name × Option Nat :=
  match mapping with
  | some m =>
    match find_packed_mapping tensor_name m with
    | some (name, id) => (name, some id)
    | none => (tensor_name, none)
  | none => (tensor_name, none)

/-- On-disk element types of the external `safetensors` crate. -/
inductive STDtype where
  | BOOL
  | U8
  | I8
  | I16
  | U16
  | I32
  | U32
  | I64
  | U64
  | F16
  | BF16
  | F32
  | F64
deriving DecidableEq

/-- Runtime element types of the external `candle_core` crate. -/
inductive DType where
  | U8
  | U32
  | I64
  | BF16
  | F16
  | F32
  | F64
deriving DecidableEq

/-- Bytes per element, used by `Tensor::from_raw_buffer`. -/
def DType.sizeInBytes : DType → Nat
  | .U8 => 1
  | .U32 => 4
  | .I64 => 8
  | .BF16 => 2
  | .F16 => 2
  | .F32 => 4
  | .F64 => 8

/-- The error text of `convert_dtype`'s catch-all arm:
`"Unsupported dtype for tensor {}"` with the name filled in. -/
def unsupportedMsg (tensor_name : Name) : Name :=
  ("Unsupported dtype for tensor ").toList ++ tensor_name

/-- Model of `convert_dtype` (loader.rs): the fixed dtype table; every dtype not
listed falls into the catch-all `bail!` arm naming the tensor. -/
def convert_dtype (dtype : STDtype) (tensor_name : Name) :
    Except Name DType :=
  match dtype with
  | .F32 => .ok .F32
  | .F16 => .ok .F16
  | .BF16 => .ok .BF16
  | .I64 => .ok .I64
  | .I32 => .ok .U32
  | .U8 => .ok .U8
  | .I8 => .ok .U8
  | .BOOL => .ok .U8
  | _ => .error (unsupportedMsg tensor_name)

/-- A named tensor view inside a safetensors file: declared dtype,
shape, and raw bytes. -/
structure TensorView where
  dtype : STDtype
  shape : List Nat
  data : List Nat
deriving DecidableEq

/-- A runtime `candle_core::Tensor` as far as the loader observes it. -/
structure Tensor where
  dtype : DType
  shape : List Nat
  data : List Nat
deriving DecidableEq

/-- Model of `create_tensor` (loader.rs): dtype conversion, then
`Tensor::from_raw_buffer`, which fails when the byte count does not
match the shape and element size. -/
def create_tensor (view : TensorView) (tensor_name : Name) :
    Except Name Tensor :=
  match convert_dtype view.dtype tensor_name with
  | .error e => .error e
  | .ok dt =>
    if view.data.length = view.shape.prod * dt.sizeInBytes then
      .ok { dtype := dt, shape := view.shape, data := view.data }
    else
      .error (("invalid raw buffer length").toList)

/-- A parsed safetensors file: named tensor views, in the order
`SafeTensors::names` yields them. -/
abbrev SafeTensorsFile := List (Name × TensorView)

/-- Model of `SafeTensors::tensor(name)`: fails when the name is absent. -/
def tensorsGet (tensors : SafeTensorsFile) (tensor_name : Name) :
    Except Name TensorView :=
  match tensors.find? (fun e => e.1 == tensor_name) with
  | some e => .ok e.2
  | none => .error (("tensor not found: ").toList ++ tensor_name)

/-- The warning printed by `process_tensor` when `load_weight` reports
the parameter missing: `"Warning: Parameter {} not found in model"`. -/
def warnMsg (param_name : Name) : Name :=
  ("Warning: Parameter ").toList ++ param_name
    ++ (" not found in model").toList

/-- The model's `load_weight` capability (trait `SafeTensorLoadable`):
`Ok(true)` = loaded, `Ok(false)` = parameter not found, `Err` = load
failure.  Mutation of the model is irrelevant to the verified control
flow, so it is a pure function here. -/
abbrev LoadWeight := Name → Tensor → Option Nat → Except Name Bool

/-- Model of `process_tensor` (loader.rs): resolve the target name, fetch and
build the tensor, delegate to `load_weight`; `Ok(false)` produces a
warning (collected in the result list) and still succeeds, while any
error aborts. -/
def process_tensor (loadWeight : LoadWeight) (tensors : SafeTensorsFile)
    (tensor_name : Name) (packed_modules_mapping : Option PackedModulesMapping) :
    Except Name (List Name) :=
  let resolved := resolve_target_name tensor_name packed_modules_mapping
  match tensorsGet tensors tensor_name with
  | .error e => .error e
  | .ok view =>
    match create_tensor view tensor_name with
    | .error e => .error e
    | .ok tensor =>
      match loadWeight resolved.1 tensor resolved.2 with
      | .error e => .error e
      | .ok found =>
        if found then .ok [] else .ok [warnMsg resolved.1]

/-- The inner loop of `load_model` over one file's tensor names; the
`?` on `process_tensor` stops the loop at the first error. -/
def processFile (loadWeight : LoadWeight) (tensors : SafeTensorsFile)
    (names : List Name) (mapping : Option PackedModulesMapping) :
    Except Name (List Name) :=
  match names with
  | [] => .ok []
  | n :: rest =>
    match process_tensor loadWeight tensors n mapping with
    | .error e => .error e
    | .ok ws =>
      match processFile loadWeight tensors rest mapping with
      | .error e => .error e
      | .ok ws' => .ok (ws ++ ws')

/-- Model of `load_model` (loader.rs): iterate the files, then every tensor name
within each file; the `?` on `process_tensor` aborts the whole load.
Files arrive parsed (file reading and container parsing are I/O,
and their failures also abort, upstream of what is modelled here). -/
def load_model (loadWeight : LoadWeight) (files : List SafeTensorsFile)
    (mapping : Option PackedModulesMapping) : Except Name (List Name) :=
  match files with
  | [] => .ok []
  | f :: rest =>
    match processFile loadWeight f (f.map (fun e => e.1)) mapping with
    | .error e => .error e
    | .ok ws =>
      match load_model loadWeight rest mapping with
      | .error e => .error e
      | .ok ws' => .ok (ws ++ ws')

/-- The packed-modules mapping of the spec's weight-loader scenario. -/
def qkvMapping : PackedModulesMapping :=
  [(("q_proj").toList, (("qkv_proj").toList, 0)),
   (("k_proj").toList, (("qkv_proj").toList, 1))]

/-- C7: name resolution returns, for the first entry whose pattern is a
substring of the tensor name, the name with the pattern replaced and
that entry's shard index, and the unmodified name with no shard index
when no pattern matches; in the spec's qkv scenario the two projection
tensors resolve to the packed name with shard indices 0 and 1. -/
theorem resolve_first_substring_match (name : Name)
    (m : PackedModulesMapping) :
    find_packed_mapping name m
      = (m.find? (fun e => containsSub name e.1)).map
          (fun e => (replaceAll name e.1 e.2.1, e.2.2)) ∧
    resolve_target_name name (some m)
      = ((m.find? (fun e => containsSub name e.1)).map
          (fun e => (replaceAll name e.1 e.2.1, some e.2.2))).getD
            (name, none) ∧
    resolve_target_name name none = (name, none) ∧
    resolve_target_name (("layer0.q_proj.weight").toList)
        (some qkvMapping)
      = ((("layer0.qkv_proj.weight").toList), some 0) ∧
    resolve_target_name (("layer0.k_proj.weight").toList)
        (some qkvMapping)
      = ((("layer0.qkv_proj.weight").toList), some 1) := by
  have h1 : find_packed_mapping name m
      = (m.find? (fun e => containsSub name e.1)).map
          (fun e => (replaceAll name e.1 e.2.1, e.2.2)) := by
    induction m with
    | nil => rfl
    | cons e rest ih =>
        obtain ⟨pat, rep, sid⟩ := e
        cases hc : containsSub name pat with
        | true => simp [find_packed_mapping, List.find?_cons, hc]
        | false => simp [find_packed_mapping, List.find?_cons, hc, ih]
  refine ⟨h1, ?_, rfl, by decide, by decide⟩
  cases hf : m.find? (fun e => containsSub name e.1) with
  | none =>
      have hfp : find_packed_mapping name m = none := by
        rw [h1, hf]; rfl
      simp [resolve_target_name, hfp, hf]
  | some e =>
      have hfp : find_packed_mapping name m
          = some (replaceAll name e.1 e.2.1, e.2.2) := by
        rw [h1, hf]; rfl
      simp [resolve_target_name, hfp, hf]

/-- The spec's fixed element-type table (§4.3), modelled from the
spec's words for comparison with `convert_dtype`: `none` marks the
unsupported on-disk types. -/
def dtypeSpecTable : STDtype → Option DType
  | .F32 => some .F32
  | .F16 => some .F16
  | .BF16 => some .BF16
  | .I64 => some .I64
  | .I32 => some .U32
  | .U8 => some .U8
  | .I8 => some .U8
  | .BOOL => some .U8
  | _ => none

/-- C8: `convert_dtype` succeeds exactly on the supported set with the
fixed table's image, and on every other dtype returns the error text
that carries the offending tensor's name — never a substituted type. -/
theorem convert_dtype_exact_table (d : STDtype) (tensor_name : Name) :
    convert_dtype d tensor_name
      = (match dtypeSpecTable d with
         | some t => Except.ok t
         | none => Except.error (unsupportedMsg tensor_name)) ∧
    unsupportedMsg tensor_name
      = ("Unsupported dtype for tensor ").toList ++ tensor_name := by
  refine ⟨?_, rfl⟩
  cases d <;> rfl

/-- When every tensor name in the list processes successfully, the file
loop succeeds (with the concatenated warnings). -/
theorem processFile_ok (lw : LoadWeight) (tensors : SafeTensorsFile)
    (names : List Name) (mapping : Option PackedModulesMapping)
    (h : ∀ n ∈ names, ∃ ws, process_tensor lw tensors n mapping
        = .ok ws) :
    ∃ ws, processFile lw tensors names mapping = .ok ws := by
  induction names with
  | nil => exact ⟨[], rfl⟩
  | cons n rest ih =>
      obtain ⟨w, hw⟩ := h n (List.mem_cons_self _ _)
      obtain ⟨ws, hws⟩ := ih (fun x hx => h x (List.mem_cons_of_mem _ hx))
      exact ⟨w ++ ws, by simp [processFile, hw, hws]⟩

/-- C9: a tensor whose resolved parameter the model reports as not
found (`load_weight` returns `Ok(false)`) yields a warning and a
successful `process_tensor`; a load in which every tensor processes
successfully completes successfully. -/
theorem load_missing_param_warns :
    (∀ (lw : LoadWeight) (tensors : SafeTensorsFile) (tensor_name : Name)
        (mapping : Option PackedModulesMapping) (view : TensorView)
        (t : Tensor),
      tensorsGet tensors tensor_name = .ok view →
      create_tensor view tensor_name = .ok t →
      lw (resolve_target_name tensor_name mapping).1 t
          (resolve_target_name tensor_name mapping).2 = .ok false →
      process_tensor lw tensors tensor_name mapping
        = .ok [warnMsg (resolve_target_name tensor_name mapping).1]) ∧
    (∀ (lw : LoadWeight) (files : List SafeTensorsFile)
        (mapping : Option PackedModulesMapping),
      (∀ f ∈ files, ∀ n ∈ f.map (fun e => e.1),
        ∃ ws, process_tensor lw f n mapping = .ok ws) →
      ∃ ws, load_model lw files mapping = .ok ws) := by
  constructor
  · intro lw tensors tensor_name mapping view t hv hc hl
    simp [process_tensor, hv, hc, hl]
  · intro lw files mapping h
    induction files with
    | nil => exact ⟨[], rfl⟩
    | cons f rest ih =>
        obtain ⟨w, hw⟩ := processFile_ok lw f (f.map (fun e => e.1))
          mapping (h f (List.mem_cons_self _ _))
        obtain ⟨ws, hws⟩ := ih (fun g hg => h g (List.mem_cons_of_mem _ hg))
        exact ⟨w ++ ws, by simp [load_model, hw, hws]⟩

/-- A `load_weight` capability that reports every parameter missing. -/
def lwNotFound : LoadWeight := fun _ _ _ => .ok false

/-- A one-element tensor name used in the loader witnesses. -/
def nmA : Name := ("a").toList

/-- A well-formed F32 scalar tensor view (4 bytes for one element). -/
def viewA : TensorView := { dtype := .F32, shape := [1], data := [0, 0, 0, 0] }

/-- The runtime tensor `create_tensor` builds from `viewA`. -/
def tensorA : Tensor := { dtype := .F32, shape := [1], data := [0, 0, 0, 0] }

/-- A parsed safetensors file holding just `viewA` under `nmA`. -/
def fileA : SafeTensorsFile := [(nmA, viewA)]

/-- C9 witness: the theorem applied to a concrete file whose single
tensor resolves to a parameter the model reports missing. -/
theorem load_missing_param_warns_witness :
    process_tensor lwNotFound fileA nmA none
      = .ok [warnMsg (resolve_target_name nmA none).1] ∧
    ∃ ws, load_model lwNotFound [fileA] none = .ok ws := by
  constructor
  · exact load_missing_param_warns.1 lwNotFound fileA nmA none viewA
      tensorA rfl rfl rfl
  · refine load_missing_param_warns.2 lwNotFound [fileA] none ?_
    intro f hf n hn
    rw [List.mem_singleton] at hf
    subst hf
    have hmap : fileA.map (fun e => e.1) = [nmA] := rfl
    rw [hmap, List.mem_singleton] at hn
    subst hn
    exact ⟨_, load_missing_param_warns.1 lwNotFound fileA nmA none viewA
      tensorA rfl rfl rfl⟩

/-- C10: a `load_weight` error (unlike a `found == false` report)
aborts: `process_tensor` propagates the error, the file loop stops at
the failing tensor whatever tensors follow, and `load_model` stops at
the failing file whatever files follow, returning that very error. -/
theorem load_weight_error_aborts :
    (∀ (lw : LoadWeight) (tensors : SafeTensorsFile) (tensor_name : Name)
        (mapping : Option PackedModulesMapping) (view : TensorView)
        (t : Tensor) (e : Name),
      tensorsGet tensors tensor_name = .ok view →
      create_tensor view tensor_name = .ok t →
      lw (resolve_target_name tensor_name mapping).1 t
          (resolve_target_name tensor_name mapping).2 = .error e →
      process_tensor lw tensors tensor_name mapping = .error e) ∧
    (∀ (lw : LoadWeight) (tensors : SafeTensorsFile) (pre : List Name)
        (bad : Name) (post : List Name)
        (mapping : Option PackedModulesMapping) (e : Name),
      (∀ n ∈ pre, ∃ ws, process_tensor lw tensors n mapping = .ok ws) →
      process_tensor lw tensors bad mapping = .error e →
      processFile lw tensors (pre ++ bad :: post) mapping = .error e) ∧
    (∀ (lw : LoadWeight) (pre : List SafeTensorsFile)
        (bad : SafeTensorsFile) (post : List SafeTensorsFile)
        (mapping : Option PackedModulesMapping) (e : Name),
      (∀ f ∈ pre, ∃ ws, processFile lw f (f.map (fun x => x.1)) mapping
          = .ok ws) →
      processFile lw bad (bad.map (fun x => x.1)) mapping = .error e →
      load_model lw (pre ++ bad :: post) mapping = .error e) := by
  refine ⟨?_, ?_, ?_⟩
  · intro lw tensors tensor_name mapping view t e hv hc hl
    simp [process_tensor, hv, hc, hl]
  · intro lw tensors pre bad post mapping e hpre hbad
    induction pre with
    | nil => simp [processFile, hbad]
    | cons n rest ih =>
        obtain ⟨w, hw⟩ := hpre n (List.mem_cons_self _ _)
        have htail := ih (fun x hx => hpre x (List.mem_cons_of_mem _ hx))
        simp [processFile, hw, htail]
  · intro lw pre bad post mapping e hpre hbad
    induction pre with
    | nil => simp [load_model, hbad]
    | cons f rest ih =>
        obtain ⟨w, hw⟩ := hpre f (List.mem_cons_self _ _)
        have htail := ih (fun x hx => hpre x (List.mem_cons_of_mem _ hx))
        simp [load_model, hw, htail]

/-- A `load_weight` capability that fails on every parameter. -/
def lwErr : LoadWeight := fun _ _ _ => .error (("boom").toList)

/-- C10 witness: the theorem applied to a concrete failing capability:
the error surfaces unchanged from `process_tensor` and from a two-file
`load_model` whose first file fails. -/
theorem load_weight_error_aborts_witness :
    process_tensor lwErr fileA nmA none = .error (("boom").toList) ∧
    load_model lwErr [fileA, fileA] none = .error (("boom").toList) := by
  have h1 : process_tensor lwErr fileA nmA none
      = .error (("boom").toList) :=
    load_weight_error_aborts.1 lwErr fileA nmA none viewA tensorA
      (("boom").toList) rfl rfl rfl
  have h2 : processFile lwErr fileA (fileA.map (fun x => x.1)) none
      = .error (("boom").toList) :=
    load_weight_error_aborts.2.1 lwErr fileA [] nmA [] none
      (("boom").toList) (fun n hn => absurd hn (List.not_mem_nil n)) h1
  exact ⟨h1, load_weight_error_aborts.2.2 lwErr [] fileA [fileA] none
    (("boom").toList) (fun f hf => absurd hf (List.not_mem_nil f)) h2⟩

end NanoVllm
